import Mathlib

/-!
# Verification of the Sigma/Schnorr zero-knowledge protocol notebooks

Shallow embedding of the Python code in `Sigma-Protocol/sigma_2.ipynb`,
`Schnorr-Protocol/schnorr_2.ipynb` and `Schnorr-Protocol/schnorr_3.ipynb`.
Python integers are modelled as `Nat` (all values in the code are
non-negative), byte strings as `List Nat` (each entry a byte), and
`hashlib.sha256` is embedded as an executable SHA-256 over byte lists
(FIPS 180-4), so that every function of the notebooks is a computable
Lean function.  Randomness (`random.randint`) is modelled by passing the
drawn value as an explicit argument, with its range as a hypothesis.
-/

/-! ## SHA-256 (executable embedding of `hashlib.sha256`)

All word arithmetic is on `Nat` reduced mod `2 ^ 32`.  Recursions are
structural or fuel-based so that the kernel can evaluate every function
(no well-founded recursion). -/

/-- Right-rotation of a 32-bit word (`x < 2^32`). -/
def rotr32 (x n : Nat) : Nat :=
  ((x >>> n) ||| (x <<< (32 - n))) % 4294967296

/-- The 64 SHA-256 round constants (FIPS 180-4, written in decimal). -/
def shaK : List Nat :=
  [1116352408, 1899447441, 3049323471, 3921009573, 961987163,
   1508970993, 2453635748, 2870763221, 3624381080, 310598401,
   607225278, 1426881987, 1925078388, 2162078206, 2614888103,
   3248222580, 3835390401, 4022224774, 264347078, 604807628,
   770255983, 1249150122, 1555081692, 1996064986, 2554220882,
   2821834349, 2952996808, 3210313671, 3336571891, 3584528711,
   113926993, 338241895, 666307205, 773529912, 1294757372,
   1396182291, 1695183700, 1986661051, 2177026350, 2456956037,
   2730485921, 2820302411, 3259730800, 3345764771, 3516065817,
   3600352804, 4094571909, 275423344, 430227734, 506948616,
   659060556, 883997877, 958139571, 1322822218, 1537002063,
   1747873779, 1955562222, 2024104815, 2227730452, 2361852424,
   2428436474, 2756734187, 3204031479, 3329325298]

/-- The SHA-256 initial hash value (FIPS 180-4, written in decimal). -/
def shaH0 : List Nat :=
  [1779033703, 3144134277, 1013904242, 2773480762,
   1359893119, 2600822924, 528734635, 1541459225]

/-- Group a byte list into 32-bit big-endian words. -/
def bytesToWords : List Nat → List Nat
  | b0 :: b1 :: b2 :: b3 :: rest =>
      (((b0 * 256 + b1) * 256 + b2) * 256 + b3) :: bytesToWords rest
  | _ => []

/-- Extend a 16-word block to the 64-word message schedule (`k` more words). -/
def extendSchedule (ws : List Nat) : Nat → List Nat
  | 0 => ws
  | k + 1 =>
      let n := ws.length
      let w15 := ws.getD (n - 15) 0
      let w2 := ws.getD (n - 2) 0
      let w16 := ws.getD (n - 16) 0
      let w7 := ws.getD (n - 7) 0
      let s0 := rotr32 w15 7 ^^^ rotr32 w15 18 ^^^ (w15 >>> 3)
      let s1 := rotr32 w2 17 ^^^ rotr32 w2 19 ^^^ (w2 >>> 10)
      extendSchedule (ws ++ [(w16 + s0 + w7 + s1) % 4294967296]) k

/-- One SHA-256 compression round on the eight-word state. -/
def compressRound (st : List Nat) (kw : Nat × Nat) : List Nat :=
  match st with
  | [a, b, c, d, e, f, g, h] =>
      let s1 := rotr32 e 6 ^^^ rotr32 e 11 ^^^ rotr32 e 25
      let ch := (e &&& f) ^^^ ((e ^^^ 4294967295) &&& g)
      let t1 := (h + s1 + ch + kw.1 + kw.2) % 4294967296
      let s0 := rotr32 a 2 ^^^ rotr32 a 13 ^^^ rotr32 a 22
      let mj := (a &&& b) ^^^ (a &&& c) ^^^ (b &&& c)
      let t2 := (s0 + mj) % 4294967296
      [(t1 + t2) % 4294967296, a, b, c, (d + t1) % 4294967296, e, f, g]
  | _ => st

/-- Process one 16-word block, updating the eight hash words. -/
def processBlock (hs block : List Nat) : List Nat :=
  let w := extendSchedule block 48
  let st := (shaK.zip w).foldl compressRound hs
  (hs.zip st).map fun pq => (pq.1 + pq.2) % 4294967296

/-- Split a word list into chunks of 16 (fuel-based for kernel evaluation). -/
def chunk16 : Nat → List Nat → List (List Nat)
  | 0, _ => []
  | _, [] => []
  | fuel + 1, ws => ws.take 16 :: chunk16 fuel (ws.drop 16)

/-- The 8-byte big-endian encoding of a 64-bit length. -/
def lenBytes8 (n : Nat) : List Nat :=
  [n / 72057594037927936 % 256, n / 281474976710656 % 256,
   n / 1099511627776 % 256, n / 4294967296 % 256,
   n / 16777216 % 256, n / 65536 % 256, n / 256 % 256, n % 256]

/-- SHA-256 padding: append `0x80`, zeros to 56 mod 64, then the bit length. -/
def padBytes (msg : List Nat) : List Nat :=
  msg ++ 128 :: List.replicate ((119 - msg.length % 64) % 64) 0
      ++ lenBytes8 (8 * msg.length)

/-- The eight 32-bit hash words of the SHA-256 digest of a byte list. -/
def sha256Words (msg : List Nat) : List Nat :=
  let ws := bytesToWords (padBytes msg)
  (chunk16 ws.length ws).foldl processBlock shaH0

/-- `int.from_bytes(hashlib.sha256(msg).digest(), byteorder='big')`:
the SHA-256 digest read as one big-endian natural number. -/
def sha256Nat (msg : List Nat) : Nat :=
  (sha256Words msg).foldl (fun acc w => acc * 4294967296 + w) 0

example : sha256Nat [] =
    0xe3b0c44298fc1c149afbf4c8996fb92427ae41e4649b934ca495991b7852b855 := by
  decide

example : sha256Nat [97, 98, 99] =
    0xba7816bf8f01cfea414140de5dae2223b00361a396177a9cb410ff61f20015ad := by
  decide

/-! ## Decimal string encoding (`str(n).encode()`) -/

/-- ASCII codes of the decimal digits of `n`, most significant first
(empty for `n = 0`); fuel-based for kernel evaluation. -/
def decDigits : Nat → Nat → List Nat
  | 0, _ => []
  | fuel + 1, n => if n == 0 then [] else decDigits fuel (n / 10) ++ [48 + n % 10]

/-- The byte string `str(n).encode()` for a non-negative Python int `n`. -/
def strBytes (n : Nat) : List Nat :=
  if n == 0 then [48] else decDigits (n + 1) n

example : strBytes 0 = [48] := by decide

example : strBytes 123 = [49, 50, 51] := by decide

/-- The byte string hashed to derive the Fiat–Shamir challenge in
`schnorr_3.ipynb`: `(str(a) + str(b)).encode()` — naive concatenation of
the decimal representations of the two bound fields (used both as
`str(t) + str(y)` in `schnorr_proof_of_possession` and as
`str(t) + str(h)` in the two `schnorr_prove` variants). -/
def fs_challenge_input (a b : Nat) : List Nat :=
  strBytes a ++ strBytes b

/-! ## `generate_parameters` (sigma_2.ipynb cell 1 and schnorr_3.ipynb cell 1)

```python
def generate_parameters():
    while True:
        p = random.randint(20, 100)          # 1000, 10000 in schnorr_3
        if all(p % i != 0 for i in range(2, int(p**0.5) + 1)):
            for q in range(2, p):
                if (p - 1) % q == 0 and all(q % i != 0 for i in range(2, int(q**0.5) + 1)):
                    for g in range(2, p):
                        if pow(g, q, p) == 1 and pow(g, (p-1)//q, p) != 1:
                            return p, q, g
```

The loop body for one random draw `p` is `generate_parameters_step`;
the retrying `while True` over a stream of draws is
`generate_parameters_run`.  `int(p**0.5)` equals `Nat.sqrt p` on every
value `random.randint` can produce (p ≤ 10000, far below any floating
point inaccuracy). -/

/-- Largest `j ≤ k` with `j * j ≤ n` (downward scan; kernel-evaluable). -/
def isqrtLin : Nat → Nat → Nat
  | 0, _ => 0
  | k + 1, n => if (k + 1) * (k + 1) ≤ n then k + 1 else isqrtLin k n

/-- `int(n**0.5)` — the integer square root (kernel-evaluable; proved
equal to `Nat.sqrt` in `isqrt_eq_sqrt`). -/
def isqrt (n : Nat) : Nat :=
  isqrtLin n n

/-- `all(n % i != 0 for i in range(2, int(n**0.5) + 1))` — trial division. -/
def isPrimeTrial (n : Nat) : Bool :=
  (List.range' 2 (isqrt n - 1)).all fun i => n % i != 0

/-- The inner `for g in range(2, p)` loop: first `g` with
`pow(g, q, p) == 1 and pow(g, (p-1)//q, p) != 1`. -/
def findG (p q : Nat) : Option Nat :=
  (List.range' 2 (p - 2)).find? fun g =>
    (g ^ q % p == 1) && (g ^ ((p - 1) / q) % p != 1)

/-- The `for q in ...` loop over a list of candidate values of `q`:
for the first `q` dividing `p - 1`, passing trial division, and admitting
a generator, return the triple; otherwise keep scanning. -/
def findQGAux (p : Nat) : List Nat → Option (Nat × Nat × Nat)
  | [] => none
  | q :: qs =>
      if ((p - 1) % q == 0) && isPrimeTrial q then
        match findG p q with
        | some g => some (p, q, g)
        | none => findQGAux p qs
      else findQGAux p qs

/-- One iteration of the `while True` loop of `generate_parameters`, for
the candidate `p` drawn by `random.randint`: `some (p, q, g)` when the
body returns, `none` when it falls through and the loop retries. -/
def generate_parameters_step (p : Nat) : Option (Nat × Nat × Nat) :=
  if isPrimeTrial p then findQGAux p (List.range' 2 (p - 2)) else none

/-- `generate_parameters` run on an explicit finite stream of random
draws for `p`: the first successful iteration's triple, or `none` when
every provided draw fell through (the Python loop would keep retrying —
there is no error path). -/
def generate_parameters_run : List Nat → Option (Nat × Nat × Nat)
  | [] => none
  | p :: rest =>
      match generate_parameters_step p with
      | some t => some t
      | none => generate_parameters_run rest

example : generate_parameters_step 23 = some (23, 2, 22) := by decide

example : generate_parameters_step 4 = none := by decide

/-! ## `keygen` (sigma_2.ipynb cell 1, schnorr_2.ipynb cell 1, schnorr_3.ipynb cell 1)

```python
def keygen(p, q, g):
    x = random.randint(1, q-1)  # Prover's secret
    y = pow(g, x, p)            # Public key
    return x, y
```

`random.randint(1, q-1)` raises `ValueError` (empty range) when
`q - 1 < 1`, i.e. when `q < 2`; otherwise it returns a draw
`x ∈ [1, q-1]`, modelled as the explicit argument `x`. -/

/-- Outcome of a `keygen` call.  The code only ever produces `ok` or
`valueError`; `invalidParametersError` is the failure the specification
describes and exists in the model solely so that statements can compare
the two failure kinds — no code path yields it. -/
inductive KeygenResult where
  | ok : Nat → Nat → KeygenResult
  | valueError : KeygenResult
  | invalidParametersError : KeygenResult
deriving DecidableEq

/-- `keygen(p, q, g)` where `x` is the value drawn by
`random.randint(1, q-1)` (ignored on the error path, where no draw
happens). -/
def keygen (p q g : Nat) (x : Nat) : KeygenResult :=
  if q < 2 then KeygenResult.valueError else KeygenResult.ok x (g ^ x % p)

/-! ## Sigma protocol (sigma_2.ipynb cell 2) -/

namespace Sigma2

/-- `sigma_commit(p, q, g)` with the draw `r = random.randint(0, q-1)`
explicit: returns `(r, pow(g, r, p))`. -/
def sigma_commit (p q g : Nat) (r : Nat) : Nat × Nat :=
  (r, g ^ r % p)

/-- `sigma_response(q, x, r, c) = (r + c * x) % q`. -/
def sigma_response (q x r c : Nat) : Nat :=
  (r + c * x) % q

/-- `sigma_verify(p, g, y, t, c, s)`: `pow(g, s, p) == (t * pow(y, c, p)) % p`. -/
def sigma_verify (p g y t c s : Nat) : Bool :=
  g ^ s % p == (t * (y ^ c % p)) % p

end Sigma2

/-! ## Schnorr identification protocol (schnorr_2.ipynb cell 3) -/

namespace Schnorr2

/-- `schnorr_prove(p, q, g, x)` with the draw `r = random.randint(0, q-1)`
explicit: returns `(r, pow(g, r, p))` (`x` is unused, as in the source). -/
def schnorr_prove (p q g x : Nat) (r : Nat) : Nat × Nat :=
  (r, g ^ r % p)

/-- `schnorr_response(p, q, g, x, r, c) = (r + c * x) % q`
(`p` and `g` are unused, as in the source). -/
def schnorr_response (p q g x r c : Nat) : Nat :=
  (r + c * x) % q

/-- `schnorr_verify(p, q, g, y, t, c, s)`:
`pow(g, s, p) == (t * pow(y, c, p)) % p` (`q` is unused, as in the source). -/
def schnorr_verify (p q g y t c s : Nat) : Bool :=
  g ^ s % p == (t * (y ^ c % p)) % p

end Schnorr2

/-! ## File-possession proofs (schnorr_3.ipynb) -/

namespace Schnorr3

/-- `schnorr_proof_of_possession(file_content, p, q, g)` (cell 2), with
the draw `r = random.randint(0, q-1)` explicit.  The content hash is the
secret; the challenge is `sha256(str(t) + str(y))`; the function verifies
its own transcript and returns the boolean outcome. -/
def schnorr_proof_of_possession (file_content : List Nat) (p q g : Nat)
    (r : Nat) : Bool :=
  let h := sha256Nat file_content % q
  let x := h
  let y := g ^ x % p
  let t := g ^ r % p
  let c := sha256Nat (fs_challenge_input t y) % q
  let s := (r + c * x) % q
  g ^ s % p == (t * (y ^ c % p)) % p

/-- The proof dictionary of the first `schnorr_prove`/`schnorr_verify`
pair (cell 4): no stored content hash. -/
structure ProofNoHash where
  commitment : Nat
  challenge : Nat
  response : Nat
  public_value : Nat
deriving DecidableEq

/-- `schnorr_verify(proof, file_content, p, q, g)` of cell 4: recomputes
the content hash `h` but never uses it — only the algebraic identity is
checked. -/
def schnorr_verify_nohash (proof : ProofNoHash) (file_content : List Nat)
    (p q g : Nat) : Bool :=
  let h := sha256Nat file_content % q
  g ^ proof.response % p ==
    (proof.commitment * (proof.public_value ^ proof.challenge % p)) % p

/-- The proof dictionary of the second `schnorr_prove`/`schnorr_verify`
pair (cell 6): the content hash is stored in the proof. -/
structure ProofHash where
  commitment : Nat
  challenge : Nat
  response : Nat
  public_value : Nat
  hash : Nat
deriving DecidableEq

/-- `schnorr_prove(file_content, p, q, g, x)` of cell 6, with the draw
`r = random.randint(0, q-1)` explicit. -/
def schnorr_prove_hash (file_content : List Nat) (p q g x : Nat)
    (r : Nat) : ProofHash :=
  let h := sha256Nat file_content % q
  let t := g ^ r % p
  let c := sha256Nat (fs_challenge_input t h) % q
  let s := (r + c * x) % q
  { commitment := t, challenge := c, response := s,
    public_value := g ^ x % p, hash := h }

/-- `schnorr_verify(proof, file_content, p, q, g)` of cell 6: rejects
immediately when the recomputed content hash differs from the stored
one, then checks the algebraic identity using the stored challenge. -/
def schnorr_verify_hash (proof : ProofHash) (file_content : List Nat)
    (p q g : Nat) : Bool :=
  let h := sha256Nat file_content % q
  if h != proof.hash then false
  else
    g ^ proof.response % p ==
      (proof.commitment * (proof.public_value ^ proof.challenge % p)) % p

/-- The commitment `g^s · (y^c)⁻¹ mod p` of a simulated (forged)
transcript, the inverse computed via Fermat (`a⁻¹ = a^(p-2) mod p`). -/
def simulated_commitment (p g y c s : Nat) : Nat :=
  (g ^ s % p) * ((y ^ c % p) ^ (p - 2) % p) % p

end Schnorr3

/-! ## Helper lemmas -/

lemma isqrtLin_sq_le (n : Nat) : ∀ k, isqrtLin k n * isqrtLin k n ≤ n := by
  intro k
  induction k with
  | zero => simp [isqrtLin]
  | succ m ih =>
      unfold isqrtLin
      split
      · assumption
      · exact ih

lemma le_isqrtLin (n : Nat) : ∀ k j, j ≤ k → j * j ≤ n → j ≤ isqrtLin k n := by
  intro k
  induction k with
  | zero => intro j hj _; omega
  | succ m ih =>
      intro j hj hjj
      unfold isqrtLin
      split
      · exact hj
      · rename_i hlt
        have hjm : j ≤ m := by
          rcases Nat.lt_or_ge j (m + 1) with h | h
          · omega
          · exact absurd (Nat.le_trans (Nat.mul_le_mul h h) hjj) hlt
        exact ih j hjm hjj

lemma isqrt_eq_sqrt (n : Nat) : isqrt n = Nat.sqrt n := by
  refine Nat.eq_sqrt.mpr ⟨isqrtLin_sq_le n n, ?_⟩
  by_contra hcon
  push_neg at hcon
  have h1 : isqrt n + 1 ≤ n :=
    Nat.le_trans (Nat.le_mul_of_pos_left _ (Nat.succ_pos _)) hcon
  have h2 := le_isqrtLin n n (isqrt n + 1) h1 hcon
  unfold isqrt at h2
  omega

lemma isPrimeTrial_prime (n : Nat) (h2 : 2 ≤ n) (h : isPrimeTrial n = true) :
    Nat.Prime n := by
  refine Nat.prime_def_le_sqrt.mpr ⟨h2, fun m hm2 hms hdvd => ?_⟩
  have hsq : 1 ≤ isqrt n := by
    rw [isqrt_eq_sqrt]
    exact Nat.sqrt_pos.mpr (by omega)
  have hmem : m ∈ List.range' 2 (isqrt n - 1) := by
    rw [List.mem_range'_1, isqrt_eq_sqrt] at *
    omega
  have := (List.all_eq_true.mp h) m hmem
  simp only [bne_iff_ne, ne_eq, decide_eq_true_eq] at this
  exact this (Nat.mod_eq_zero_of_dvd hdvd)

lemma pow_mod_cycle (p q g : Nat) (hp : 2 ≤ p) (hgq : g ^ q % p = 1) (a : Nat) :
    g ^ (a % q) % p = g ^ a % p := by
  conv_rhs => rw [← Nat.div_add_mod a q]
  rw [pow_add, pow_mul]
  have h1 : Nat.ModEq p (g ^ q) 1 := by
    show g ^ q % p = 1 % p
    rw [hgq, Nat.mod_eq_of_lt (by omega)]
  have h1' := h1.pow (a / q)
  rw [one_pow] at h1'
  have h2 : Nat.ModEq p ((g ^ q) ^ (a / q) * g ^ (a % q)) (1 * g ^ (a % q)) :=
    Nat.ModEq.mul h1' Nat.ModEq.rfl
  rw [one_mul] at h2
  exact h2.symm

lemma verify_identity_core (p q g x r c : Nat) (hp : 2 ≤ p)
    (hgq : g ^ q % p = 1) :
    g ^ ((r + c * x) % q) % p = (g ^ r % p) * ((g ^ x % p) ^ c % p) % p := by
  rw [pow_mod_cycle p q g hp hgq, ← Nat.pow_mod, ← pow_mul, ← Nat.mul_mod,
    ← pow_add, Nat.mul_comm c x]

lemma pow_mod_eq_one_iff (p g e : Nat) (hp : 2 ≤ p) :
    g ^ e % p = 1 ↔ ((g : ZMod p)) ^ e = 1 := by
  have h1 : ((1 : ZMod p)) = (((1 : Nat)) : ZMod p) := by simp
  rw [← Nat.cast_pow, h1, ZMod.natCast_eq_natCast_iff',
    Nat.mod_eq_of_lt (show 1 < p by omega)]

lemma order_exact (p q g : Nat) (hp : 2 ≤ p) (hq : Nat.Prime q)
    (hgq : g ^ q % p = 1) (hgord : g ^ ((p - 1) / q) % p ≠ 1) :
    ∀ m, 0 < m → m < q → g ^ m % p ≠ 1 := by
  intro m hm0 hmq hgm
  haveI : NeZero p := ⟨by omega⟩
  have huq : ((g : ZMod p)) ^ q = 1 := (pow_mod_eq_one_iff p g q hp).mp hgq
  have hum : ((g : ZMod p)) ^ m = 1 := (pow_mod_eq_one_iff p g m hp).mp hgm
  have hdq : orderOf ((g : ZMod p)) ∣ q := orderOf_dvd_of_pow_eq_one huq
  have hdm : orderOf ((g : ZMod p)) ∣ m := orderOf_dvd_of_pow_eq_one hum
  rcases (Nat.Prime.eq_one_or_self_of_dvd hq _ hdq) with h1 | hqq
  · have hg1 : ((g : ZMod p)) = 1 := orderOf_eq_one_iff.mp h1
    apply hgord
    rw [pow_mod_eq_one_iff p g ((p - 1) / q) hp, hg1, one_pow]
  · rw [hqq] at hdm
    exact absurd (Nat.le_of_dvd hm0 hdm) (by omega)

lemma findQGAux_eq_some (p : Nat) :
    ∀ (l : List Nat) (p' q g : Nat), findQGAux p l = some (p', q, g) →
      p' = p ∧ q ∈ l ∧ (p - 1) % q = 0 ∧ isPrimeTrial q = true ∧
        findG p q = some g := by
  intro l
  induction l with
  | nil => intro p' q g h; simp [findQGAux] at h
  | cons a as ih =>
      intro p' q g h
      unfold findQGAux at h
      split at h
      · rename_i hcond
        rcases hfg : findG p a with _ | g0
        · rw [hfg] at h
          obtain ⟨h1, h2, h3, h4, h5⟩ := ih p' q g h
          exact ⟨h1, List.mem_cons_of_mem a h2, h3, h4, h5⟩
        · rw [hfg] at h
          simp only [Option.some.injEq, Prod.mk.injEq] at h
          obtain ⟨hp', hq, hg⟩ := h
          rw [Bool.and_eq_true, beq_iff_eq] at hcond
          subst hp' hq hg
          exact ⟨rfl, List.mem_cons_self a as, hcond.1, hcond.2, hfg⟩
      · rename_i hcond
        obtain ⟨h1, h2, h3, h4, h5⟩ := ih p' q g h
        exact ⟨h1, List.mem_cons_of_mem a h2, h3, h4, h5⟩


/-! ## Claim theorems -/

/-- Claim C1: Completeness of the interactive protocol.  For every
parameter triple (p, q, g) with p prime, q a prime dividing p−1, and g
of multiplicative order exactly q mod p, every secret x ∈ [1, q−1] with
public key y = g^x mod p, every nonce r ∈ [0, q−1] and challenge
c ∈ [0, q−1], `sigma_verify` accepts the honestly produced transcript,
and likewise `schnorr_verify` for `schnorr_prove`/`schnorr_response`. -/
theorem sigma_schnorr_completeness (p q g x r c : Nat)
    (hp : Nat.Prime p) (hq : Nat.Prime q) (hdvd : q ∣ p - 1)
    (hgq : g ^ q % p = 1) (hgord : g ^ ((p - 1) / q) % p ≠ 1)
    (hx1 : 1 ≤ x) (hxq : x ≤ q - 1) (hr : r ≤ q - 1) (hc : c ≤ q - 1) :
    Sigma2.sigma_verify p g (g ^ x % p) (Sigma2.sigma_commit p q g r).2 c
      (Sigma2.sigma_response q x r c) = true ∧
    Schnorr2.schnorr_verify p q g (g ^ x % p)
      (Schnorr2.schnorr_prove p q g x r).2 c
      (Schnorr2.schnorr_response p q g x r c) = true := by
  have hcore := verify_identity_core p q g x r c hp.two_le hgq
  constructor
  · show (g ^ ((r + c * x) % q) % p ==
      (g ^ r % p) * ((g ^ x % p) ^ c % p) % p) = true
    exact beq_iff_eq.mpr hcore
  · show (g ^ ((r + c * x) % q) % p ==
      (g ^ r % p) * ((g ^ x % p) ^ c % p) % p) = true
    exact beq_iff_eq.mpr hcore

/-- Witness for C1: the concrete scenario p = 89, q = 11, g = 2, x = 9
(y = 67), r = 0 (t = 1), c = 2 (s = 7). -/
theorem sigma_schnorr_completeness_witness :
    Sigma2.sigma_verify 89 2 (2 ^ 9 % 89) (Sigma2.sigma_commit 89 11 2 0).2 2
      (Sigma2.sigma_response 11 9 0 2) = true ∧
    Schnorr2.schnorr_verify 89 11 2 (2 ^ 9 % 89)
      (Schnorr2.schnorr_prove 89 11 2 9 0).2 2
      (Schnorr2.schnorr_response 89 11 2 9 0 2) = true :=
  sigma_schnorr_completeness 89 11 2 9 0 2 (by norm_num) (by norm_num)
    (by decide) (by decide) (by decide) (by decide) (by decide) (by decide)
    (by decide)

/-- Claim C2: the verification predicate is exactly the algebraic
identity check — for p ≥ 2 the verifier accepts iff g^s ≡ t·y^c (mod p),
as an exact modular equality. -/
theorem verify_iff_algebraic_identity (p q g y t c s : Nat) (hp : 2 ≤ p) :
    (Sigma2.sigma_verify p g y t c s = true ↔
      Nat.ModEq p (g ^ s) (t * y ^ c)) ∧
    (Schnorr2.schnorr_verify p q g y t c s = true ↔
      Nat.ModEq p (g ^ s) (t * y ^ c)) := by
  have key : (t * (y ^ c % p)) % p = (t * y ^ c) % p := by
    conv_lhs => rw [Nat.mul_mod, Nat.mod_mod_of_dvd _ (dvd_refl p),
      ← Nat.mul_mod]
  constructor
  · show (g ^ s % p == (t * (y ^ c % p)) % p) = true ↔ _
    rw [beq_iff_eq, key]
    exact Iff.rfl
  · show (g ^ s % p == (t * (y ^ c % p)) % p) = true ↔ _
    rw [beq_iff_eq, key]
    exact Iff.rfl

/-- Witness for C2: the identity at the concrete accepting transcript
(89, 2, 67, 1, 2, 7). -/
theorem verify_iff_algebraic_identity_witness :
    (Sigma2.sigma_verify 89 2 67 1 2 7 = true ↔
      Nat.ModEq 89 (2 ^ 7) (1 * 67 ^ 2)) ∧
    (Schnorr2.schnorr_verify 89 11 2 67 1 2 7 = true ↔
      Nat.ModEq 89 (2 ^ 7) (1 * 67 ^ 2)) :=
  verify_iff_algebraic_identity 89 11 2 67 1 2 7 (by norm_num)

/-- Claim C4: every triple (p, q, g) returned by an iteration of
`generate_parameters` (for a candidate p ≥ 2, as every value of
`random.randint(20, 100)` or `random.randint(1000, 10000)` is) satisfies:
p prime, q prime, q ∣ p−1, g ∈ [2, p), g^q ≡ 1 (mod p),
g^((p−1)/q) ≠ 1 (mod p), and hence g has multiplicative order exactly q
modulo p. -/
theorem generate_parameters_postcondition (p p' q g : Nat) (hp2 : 2 ≤ p)
    (h : generate_parameters_step p = some (p', q, g)) :
    p' = p ∧ Nat.Prime p ∧ Nat.Prime q ∧ q ∣ p - 1 ∧ 2 ≤ g ∧ g < p ∧
      g ^ q % p = 1 ∧ g ^ ((p - 1) / q) % p ≠ 1 ∧
      ∀ m, 0 < m → m < q → g ^ m % p ≠ 1 := by
  unfold generate_parameters_step at h
  split at h
  case isFalse => exact absurd h (by simp)
  case isTrue hptrial =>
    obtain ⟨hp', hqmem, hqdvd, hqtrial, hfg⟩ := findQGAux_eq_some p _ p' q g h
    rw [List.mem_range'_1] at hqmem
    have hgmem := List.mem_of_find?_eq_some hfg
    rw [List.mem_range'_1] at hgmem
    have hgpred := List.find?_some hfg
    rw [Bool.and_eq_true, beq_iff_eq, bne_iff_ne] at hgpred
    have hqprime := isPrimeTrial_prime q (by omega) hqtrial
    refine ⟨hp', isPrimeTrial_prime p hp2 hptrial, hqprime,
      Nat.dvd_of_mod_eq_zero hqdvd, by omega, by omega,
      hgpred.1, hgpred.2, ?_⟩
    exact order_exact p q g hp2 hqprime hgpred.1 hgpred.2

/-- Witness for C4: the iteration for the candidate p = 23 returns
(23, 2, 22), and the postcondition holds there (order conjunct
instantiated at m = 1). -/
theorem generate_parameters_postcondition_witness :
    (23 : Nat) = 23 ∧ Nat.Prime 23 ∧ Nat.Prime 2 ∧ (2 : Nat) ∣ 23 - 1 ∧
      (2 : Nat) ≤ 22 ∧ (22 : Nat) < 23 ∧ 22 ^ 2 % 23 = 1 ∧
      22 ^ ((23 - 1) / 2) % 23 ≠ 1 ∧ 22 ^ 1 % 23 ≠ 1 := by
  have h := generate_parameters_postcondition 23 23 2 22 (by norm_num)
    (by decide)
  exact ⟨h.1, h.2.1, h.2.2.1, h.2.2.2.1, h.2.2.2.2.1, h.2.2.2.2.2.1,
    h.2.2.2.2.2.2.1, h.2.2.2.2.2.2.2.1,
    h.2.2.2.2.2.2.2.2 1 (by norm_num) (by norm_num)⟩

/-- Claim C3 (amended): tamper-detection round-trip for file-possession
proofs.  For valid (p, q, g), secret x ∈ [1, q−1], nonce r ∈ [0, q−1]
and content C, the hash-storing proof verifies against C; and for every
content C' whose reduced hash H(C') mod q differs from the stored
H(C) mod q, verification of the proof against C' fails.  (The original
claim, quantifying over every C' ≠ C, is false: contents whose SHA-256
digests collide modulo the toy-sized q are accepted — see the
counterexample.) -/
theorem tamper_detection_roundtrip (p q g x r : Nat) (C C' : List Nat)
    (hp : Nat.Prime p) (hq : Nat.Prime q) (hdvd : q ∣ p - 1)
    (hgq : g ^ q % p = 1) (hgord : g ^ ((p - 1) / q) % p ≠ 1)
    (hx1 : 1 ≤ x) (hxq : x ≤ q - 1) (hr : r ≤ q - 1)
    (hcoll : sha256Nat C' % q ≠ sha256Nat C % q) :
    Schnorr3.schnorr_verify_hash (Schnorr3.schnorr_prove_hash C p q g x r)
      C p q g = true ∧
    Schnorr3.schnorr_verify_hash (Schnorr3.schnorr_prove_hash C p q g x r)
      C' p q g = false := by
  constructor
  · show (if (sha256Nat C % q != sha256Nat C % q) then false else _) = true
    rw [bne_self_eq_false, if_neg (by simp)]
    show (g ^ ((r + _ * x) % q) % p ==
      (g ^ r % p) * ((g ^ x % p) ^ _ % p) % p) = true
    exact beq_iff_eq.mpr (verify_identity_core p q g x r _ hp.two_le hgq)
  · show (if (sha256Nat C' % q != sha256Nat C % q) then false else _) = false
    rw [if_pos]
    exact bne_iff_ne.mpr hcoll

/-- Witness for C3 (amended): p = 7, q = 2, g = 6, x = 1, r = 0,
C = b"A" = [65], C' = b"B" = [66]; the SHA-256 digests of C and C' have
different parities, so the proof verifies against C and is rejected
against C'. -/
theorem tamper_detection_roundtrip_witness :
    Schnorr3.schnorr_verify_hash (Schnorr3.schnorr_prove_hash [65] 7 2 6 1 0)
      [65] 7 2 6 = true ∧
    Schnorr3.schnorr_verify_hash (Schnorr3.schnorr_prove_hash [65] 7 2 6 1 0)
      [66] 7 2 6 = false :=
  tamper_detection_roundtrip 7 2 6 1 0 [65] [66] (by norm_num) (by norm_num)
    (by decide) (by decide) (by decide) (by decide) (by decide) (by decide)
    (by decide)

/-- Counterexample to C3 as stated: with the valid parameters
(p, q, g) = (7, 2, 6), secret x = 1 ∈ [1, q−1], nonce r = 0, and the
distinct contents C = b"A" = [65] and C' = b"C" = [67] (whose SHA-256
digests are both odd, hence collide mod q = 2), the proof produced for C
is ACCEPTED against C' — contradicting "for every content C' ≠ C,
schnorr_verify(P, C', p, q, g) == False". -/
theorem tamper_detection_counterexample :
    Nat.Prime 7 ∧ Nat.Prime 2 ∧ (2 : Nat) ∣ 7 - 1 ∧ 6 ^ 2 % 7 = 1 ∧
    6 ^ ((7 - 1) / 2) % 7 ≠ 1 ∧ ([65] : List Nat) ≠ [67] ∧
    Schnorr3.schnorr_verify_hash (Schnorr3.schnorr_prove_hash [65] 7 2 6 1 0)
      [67] 7 2 6 = true :=
  ⟨by norm_num, by norm_num, by decide, by decide, by decide, by decide,
   by decide⟩

/-- Claim C5: the hash-checking file-possession verifier never recomputes
the Fiat–Shamir challenge — it uses the stored challenge as-is.  For
every prime p, generator value g not divisible by p, public value
y = g^k mod p in the subgroup generated by g, content C, and any
c, s ∈ [0, q−1], the simulated proof with commitment g^s·(y^c)⁻¹ mod p,
stored hash H(C) mod q, challenge c and response s is accepted, even
when c differs from the Fiat–Shamir hash H(str(t) + str(h)) mod q and
the proof was produced without any secret. -/
theorem simulated_proof_accepted (p q g k y c s : Nat) (C : List Nat)
    (hp : Nat.Prime p) (hg : ¬ p ∣ g) (hy : y = g ^ k % p)
    (hc : c ≤ q - 1) (hs : s ≤ q - 1)
    (hnotfs : c ≠ sha256Nat (fs_challenge_input
      (Schnorr3.simulated_commitment p g y c s) (sha256Nat C % q)) % q) :
    Schnorr3.schnorr_verify_hash
      { commitment := Schnorr3.simulated_commitment p g y c s,
        challenge := c, response := s, public_value := y,
        hash := sha256Nat C % q } C p q g = true := by
  haveI : Fact (Nat.Prime p) := ⟨hp⟩
  haveI : NeZero p := ⟨hp.ne_zero⟩
  show (if (sha256Nat C % q != sha256Nat C % q) then false else _) = true
  rw [bne_self_eq_false, if_neg (by simp)]
  refine beq_iff_eq.mpr ?_
  show g ^ s % p =
    Schnorr3.simulated_commitment p g y c s * (y ^ c % p) % p
  refine (ZMod.natCast_eq_natCast_iff' _ _ _).mp ?_
  unfold Schnorr3.simulated_commitment
  push_cast [ZMod.natCast_mod]
  have hGne : ((g : ZMod p)) ≠ 0 := by
    rw [Ne, ZMod.natCast_zmod_eq_zero_iff_dvd]
    exact hg
  have hYne : ((y : ZMod p)) ^ c ≠ 0 := by
    refine pow_ne_zero _ ?_
    rw [hy]
    push_cast [ZMod.natCast_mod]
    exact pow_ne_zero _ hGne
  have hfermat : (((y : ZMod p)) ^ c) ^ (p - 2) * ((y : ZMod p)) ^ c = 1 := by
    rw [← pow_succ]
    rw [show p - 2 + 1 = p - 1 from by have := hp.two_le; omega]
    exact ZMod.pow_card_sub_one_eq_one hYne
  rw [mul_assoc, hfermat, mul_one]

/-- Witness for C5: p = 7, q = 2, g = 6, y = 6 (k = 1), c = 1, s = 0,
C = b"A" = [65]; the Fiat–Shamir challenge recomputed from the simulated
commitment and the stored hash is 0 ≠ c, yet the proof is accepted. -/
theorem simulated_proof_accepted_witness :
    Schnorr3.schnorr_verify_hash
      { commitment := Schnorr3.simulated_commitment 7 6 6 1 0,
        challenge := 1, response := 0, public_value := 6,
        hash := sha256Nat [65] % 2 } [65] 7 2 6 = true :=
  simulated_proof_accepted 7 2 6 1 6 1 0 [65] (by norm_num) (by decide)
    (by decide) (by decide) (by decide) (by decide)

/-- Claim C8: the file-possession verifier variant that does not compare
the stored hash is independent of its file-content argument — the
recomputed hash is dead code, so the result is identical for any two
contents, and this variant cannot detect content tampering. -/
theorem verify_nohash_content_independent (proof : Schnorr3.ProofNoHash)
    (C1 C2 : List Nat) (p q g : Nat) :
    Schnorr3.schnorr_verify_nohash proof C1 p q g =
      Schnorr3.schnorr_verify_nohash proof C2 p q g := rfl

/-- Counterexample to C6 as stated: with the valid parameters
(p, q, g) = (89, 11, 2) and public key y = 67, the out-of-range
challenge c = 13 ∉ [0, 10] is silently ACCEPTED by both verifiers
(13 ≡ 2 (mod 11), and s = 7 is the honest response for c = 2) —
contradicting "any challenge c or response s outside [0, q−1] returns
False". -/
theorem out_of_range_challenge_accepted :
    Nat.Prime 89 ∧ Nat.Prime 11 ∧ (11 : Nat) ∣ 89 - 1 ∧ 2 ^ 11 % 89 = 1 ∧
    2 ^ ((89 - 1) / 11) % 89 ≠ 1 ∧ 11 - 1 < 13 ∧
    Sigma2.sigma_verify 89 2 67 1 13 7 = true ∧
    Schnorr2.schnorr_verify 89 11 2 67 1 13 7 = true :=
  ⟨by norm_num, by norm_num, by decide, by decide, by decide, by decide,
   by decide, by decide⟩

/-- Claim C6 (amended): `sigma_verify` and `schnorr_verify` are total
Boolean functions of their integer inputs — rejection is returning
`false`, never an exception — but out-of-range c or s are NOT rejected:
the verifiers do not range-check, and when g and y lie in the order-q
subgroup the verdict is invariant under shifting c or s by q, so
out-of-range transcripts can be silently accepted.  (The original claim,
that every out-of-range c or s yields False, is refuted by the
counterexample.) -/
theorem verify_no_range_check (p q g y t c s : Nat)
    (hgq : g ^ q % p = 1) (hyq : y ^ q % p = 1) :
    (Sigma2.sigma_verify p g y t (c + q) s = Sigma2.sigma_verify p g y t c s) ∧
    (Sigma2.sigma_verify p g y t c (s + q) = Sigma2.sigma_verify p g y t c s) ∧
    (Schnorr2.schnorr_verify p q g y t (c + q) s =
      Schnorr2.schnorr_verify p q g y t c s) ∧
    (Schnorr2.schnorr_verify p q g y t c (s + q) =
      Schnorr2.schnorr_verify p q g y t c s) := by
  have ha : y ^ (c + q) % p = y ^ c % p := by
    rw [pow_add, Nat.mul_mod, hyq, mul_one, Nat.mod_mod_of_dvd _ (dvd_refl p)]
  have hb : g ^ (s + q) % p = g ^ s % p := by
    rw [pow_add, Nat.mul_mod, hgq, mul_one, Nat.mod_mod_of_dvd _ (dvd_refl p)]
  refine ⟨?_, ?_, ?_, ?_⟩ <;>
    simp only [Sigma2.sigma_verify, Schnorr2.schnorr_verify, ha, hb]

/-- Witness for C6 (amended): shifting the challenge 2 or the response 7
by q = 11 leaves the verdict unchanged at the concrete transcript. -/
theorem verify_no_range_check_witness :
    (Sigma2.sigma_verify 89 2 67 1 (2 + 11) 7 =
      Sigma2.sigma_verify 89 2 67 1 2 7) ∧
    (Sigma2.sigma_verify 89 2 67 1 2 (7 + 11) =
      Sigma2.sigma_verify 89 2 67 1 2 7) ∧
    (Schnorr2.schnorr_verify 89 11 2 67 1 (2 + 11) 7 =
      Schnorr2.schnorr_verify 89 11 2 67 1 2 7) ∧
    (Schnorr2.schnorr_verify 89 11 2 67 1 2 (7 + 11) =
      Schnorr2.schnorr_verify 89 11 2 67 1 2 7) :=
  verify_no_range_check 89 11 2 67 1 2 7 (by decide) (by decide)

/-- Claim C7: the encoding of the Fiat–Shamir binding data is naive
decimal string concatenation and is AMBIGUOUS: the distinct field pairs
(t, h) = (12, 3) and (t', h') = (1, 23) are fed to the hash as the same
byte string "123" — the code does exactly the pitfall the specification
says must be avoided. -/
theorem fs_challenge_encoding_ambiguous :
    fs_challenge_input 12 3 = fs_challenge_input 1 23 ∧
    ((12, 3) : Nat × Nat) ≠ (1, 23) := by decide

/-- Counterexample to C9 as stated: after 100 consecutive failing
candidate draws (p = 4, composite), `generate_parameters` is still
searching — the model returns `none`, meaning the `while True` loop
retries; no `ParameterGenerationError` is ever produced (the code has no
error path at all). -/
theorem generate_parameters_no_error_counterexample :
    generate_parameters_run (List.replicate 100 4) = none := by decide

/-- Claim C9 (amended): `generate_parameters` searches unboundedly — it
retries forever on failing draws and never raises
`ParameterGenerationError` (no such exception exists in the code): for
every number n of failing candidate draws, the run returns `none`
(continue searching) rather than any error outcome. -/
theorem generate_parameters_unbounded_search (n : Nat) :
    generate_parameters_run (List.replicate n 4) = none := by
  induction n with
  | zero => rfl
  | succ m ih =>
      rw [List.replicate_succ]
      show (match generate_parameters_step 4 with
            | some t => some t
            | none => generate_parameters_run (List.replicate m 4)) = none
      rw [show generate_parameters_step 4 = none from by decide]
      exact ih

/-- Counterexample to C10 as stated: at q = 1 < 2 the code fails with
`ValueError` (raised by `random.randint(1, 0)` on an empty range), which
is not the `InvalidParametersError` the claim asserts. -/
theorem keygen_value_error_counterexample :
    keygen 89 1 2 1 = KeygenResult.valueError ∧
    KeygenResult.valueError ≠ KeygenResult.invalidParametersError := by
  decide

/-- Claim C10 (amended): `keygen` draws the secret x from [1, q−1],
computes y = g^x mod p, and has no side effect beyond consuming
randomness; whenever q < 2 it fails — but with the `ValueError` raised
by `random.randint` on an empty range, not with
`InvalidParametersError`, which does not exist in the code. -/
theorem keygen_contract (p q g x : Nat) (hq : 2 ≤ q) (hx1 : 1 ≤ x)
    (hxq : x ≤ q - 1) :
    keygen p q g x = KeygenResult.ok x (g ^ x % p) ∧
    keygen p 1 g x = KeygenResult.valueError ∧
    keygen p 0 g x = KeygenResult.valueError := by
  refine ⟨?_, rfl, rfl⟩
  unfold keygen
  rw [if_neg (by omega)]

/-- Witness for C10 (amended): p = 89, q = 11, g = 2, x = 9. -/
theorem keygen_contract_witness :
    keygen 89 11 2 9 = KeygenResult.ok 9 (2 ^ 9 % 89) ∧
    keygen 89 1 2 9 = KeygenResult.valueError ∧
    keygen 89 0 2 9 = KeygenResult.valueError :=
  keygen_contract 89 11 2 9 (by norm_num) (by norm_num) (by norm_num)

/-- Witness for C8: the verdict on a concrete proof is the same for the
contents b"A" and b"B". -/
theorem verify_nohash_content_independent_witness :
    Schnorr3.schnorr_verify_nohash ⟨6, 1, 0, 6⟩ [65] 7 2 6 =
      Schnorr3.schnorr_verify_nohash ⟨6, 1, 0, 6⟩ [66] 7 2 6 :=
  verify_nohash_content_independent ⟨6, 1, 0, 6⟩ [65] [66] 7 2 6

/-- Witness for C9 (amended): five failing draws leave the search
running. -/
theorem generate_parameters_unbounded_search_witness :
    generate_parameters_run (List.replicate 5 4) = none :=
  generate_parameters_unbounded_search 5
